import Mathlib

/-!
Verification development for the generic CRUD data-access layer of the
apollo-universal-starter-kit module template
(`tools/templates/module/client-react/index.tsx`, the `Crud` class).

The embedding models:
  * the `humps` casing helpers (`decamelize`, `camelize`, `pascalize`) used
    by the source for column/key conversion;
  * JavaScript values appearing in mutation payloads (numbers, strings,
    `null`, and nested-collection objects `{ create, update, delete }`),
    together with JS truthiness;
  * the SQL database reachable through the knex connector as a map from
    full table names to tables (row lists plus an auto-increment counter),
    extended with an operation log so that the statements a method issues
    are observable;
  * the `Crud` class itself: every method is translated from the source,
    with the knex/knexnest calls given their SQL semantics.

`FieldError` (common/FieldError) and the helpers `selectBy`/`orderedFor`
are repository code that is not part of the sources provided; they are
modelled from the specification where marked.
-/

/-! ## Casing helpers (humps library) -/

/-- Model of humps `decamelize`: insert an underscore before each upper-case
letter and lower-case it, e.g. `userId ↦ user_id`. -/
def decamelize (s : String) : String :=
  String.mk (s.data.foldr
    (fun c acc => if c.isUpper then '_' :: c.toLower :: acc else c :: acc) [])

/-- Character-list worker for `camelize`: an underscore followed by a letter
becomes the upper-cased letter, e.g. `user_id ↦ userId`. -/
def camelizeChars : List Char → List Char
  | [] => []
  | '_' :: c :: rest => c.toUpper :: camelizeChars rest
  | c :: rest => c :: camelizeChars rest

/-- Model of humps `camelize`. -/
def camelize (s : String) : String :=
  String.mk (camelizeChars s.data)

/-- Model of humps `pascalize`: camelize, then upper-case the first letter. -/
def pascalize (s : String) : String :=
  match (camelize s).data with
  | [] => ""
  | c :: rest => String.mk (c.toUpper :: rest)

/-! ## JavaScript values and payload objects -/

/-- A JavaScript value as it appears in a mutation payload: a number, a
string, `null`, or a nested-collection object `{ create?, update?, delete? }`
(`update` entries are `{ data, where }` pairs, `delete` entries are `where`
objects). -/
inductive Value where
  | num (n : Nat)
  | str (s : String)
  | vnull
  | sub (create : Option (List (List (String × Value))))
        (upd : Option (List ((List (String × Value)) × (List (String × Value)))))
        (del : Option (List (List (String × Value))))

/-- A JavaScript object / SQL row: an association list from keys to values
(JS object keys are unique; the list form is general). -/
abbrev Obj := List (String × Value)

/-- Field access `o[k]` (first binding wins, as for unique JS keys). -/
def Obj.getF : Obj → String → Option Value
  | [], _ => none
  | kv :: t, k => if kv.1 = k then some kv.2 else Obj.getF t k

/-- JS property deletion `delete o[k]`: remove the binding for `k`. -/
def Obj.eraseF : Obj → String → Obj
  | [], _ => []
  | kv :: t, k => if kv.1 = k then Obj.eraseF t k else kv :: Obj.eraseF t k

/-- JS property assignment `o[k] = v` (existing binding replaced, new key
appended). -/
def Obj.setF (o : Obj) (k : String) (v : Value) : Obj :=
  o.eraseF k ++ [(k, v)]

/-- JS truthiness of a value: `0`, `""` and `null` are falsy, every object is
truthy. -/
def valTruthy : Value → Bool
  | .num n => n ≠ 0
  | .str s => s ≠ ""
  | .vnull => false
  | .sub _ _ _ => true

/-- JS truthiness of a field access: an absent key (`undefined`) is falsy. -/
def valTruthyOpt : Option Value → Bool
  | none => false
  | some v => valTruthy v

/-- SQL equality used by `where` clauses: numbers and strings compare by
value, `NULL = NULL` is not satisfied, nested objects never compare equal. -/
def sqlValEq : Value → Value → Bool
  | .num a, .num b => a == b
  | .str a, .str b => a == b
  | _, _ => false

/-- Lexicographic order on character lists (SQL string collation model). -/
def charListLe : List Char → List Char → Bool
  | [], _ => true
  | _ :: _, [] => false
  | a :: as, b :: bs => if a < b then true else if b < a then false else charListLe as bs

/-- SQL `ORDER BY` comparison on values: `NULL`s sort first, numbers and
strings by their natural orders; numbers before strings; nested objects are
not comparable (they do not occur in ordered columns). -/
def valLe : Value → Value → Bool
  | .vnull, _ => true
  | .num _, .vnull => false
  | .str _, .vnull => false
  | .sub _ _ _, .vnull => false
  | .num a, .num b => a ≤ b
  | .str a, .str b => charListLe a.data b.data
  | .num _, .str _ => true
  | .str _, .num _ => false
  | .sub _ _ _, _ => false
  | .num _, .sub _ _ _ => false
  | .str _, .sub _ _ _ => false

/-- `ORDER BY` comparison on an optional column value (`NULL`/missing column
sorts first). -/
def optValLe : Option Value → Option Value → Bool
  | none, _ => true
  | some _, none => false
  | some a, some b => valLe a b

/-- Does the second character list start with the first? -/
def charsStartWith : List Char → List Char → Bool
  | [], _ => true
  | _ :: _, [] => false
  | a :: as, b :: bs => a == b && charsStartWith as bs

/-- Does the second character list contain the first as a contiguous run? -/
def charsInfixOf (needle : List Char) : List Char → Bool
  | [] => charsStartWith needle []
  | c :: rest => charsStartWith needle (c :: rest) || charsInfixOf needle rest

/-- SQL `LIKE '%txt%'` on a column value: substring match on the string
(numbers via their decimal rendering); `NULL` never matches. -/
def likeMatch : Option Value → String → Bool
  | some (.str s), txt => charsInfixOf txt.data s.data
  | some (.num n), txt => charsInfixOf txt.data (Nat.repr n).data
  | _, _ => false

/-- SQL `COUNT(DISTINCT ...)` value equality (`NULL`s are filtered out before
counting, nested objects never occur in an id column and count as distinct). -/
def isNullV : Value → Bool
  | .vnull => true
  | _ => false

/-- `decamelizeKeys` (humps) as used on insert/update payloads: convert the
top-level keys of the object to snake_case. (The library also deep-converts
plain nested objects; the payloads the modelled statements receive are flat,
so the top-level conversion is the observable part.) -/
def decamelizeKeys (o : Obj) : Obj :=
  o.map (fun kv => (decamelize kv.1, kv.2))

/-! ## Schemas -/

/-- A field of a related (nested) schema, as read by the `orderBy` resolution
loop: its key and its `sortBy` marker. -/
structure RemoteField where
  name : String
  sortBy : Bool

/-- A related schema: name plus fields (one level deep, which is all the
`Crud` code reads from a nested schema). -/
structure RefSchema where
  name : String
  fields : List RemoteField

/-- The declared type of a schema field: a scalar, a nested schema
(`value.type.isSchema`), or an array of schema
(`value.type.constructor === Array`). -/
inductive FieldType where
  | scalar
  | schemaT (s : RefSchema)
  | arrayOf (s : RefSchema)

/-- Whether `value.type.isSchema` is truthy (only a plain nested schema has
the marker; arrays and scalars do not). -/
def FieldType.isSchemaB : FieldType → Bool
  | .schemaT _ => true
  | _ => false

/-- Whether `value.type.constructor === Array`. -/
def FieldType.isArrayB : FieldType → Bool
  | .arrayOf _ => true
  | _ => false

/-- A schema field descriptor: type plus the metadata the `Crud` code reads
(`searchText` flag; `sortBy` is only read on nested schemas). -/
structure FieldDesc where
  type : FieldType
  searchText : Bool

/-- A domain schema: name and ordered key/descriptor pairs
(`schema.keys()` / `schema.values[key]`). -/
structure Schema where
  name : String
  fields : List (String × FieldDesc)

/-- Whether some schema field with key `k` is declared as array-of-schema. -/
def Schema.isArrayKeyB (s : Schema) (k : String) : Bool :=
  s.fields.any (fun f => f.1 == k && f.2.type.isArrayB)

/-! ## The database reachable through the knex connector -/

/-- One SQL table: its rows (stored with snake_case column keys) and the
auto-increment counter for the `id` column. -/
structure Table where
  rows : List Obj
  nextId : Nat

/-- An executed SQL statement, recorded so that the statements a method
issues are observable. -/
inductive Op where
  | opInsert (table : String) (payload : Obj)
  | opUpdate (table : String) (payload : Obj) (whereC : Obj)
  | opDelete (table : String) (whereC : Obj)
  | opDeleteIn (table : String) (ids : List Nat)
  | opSortRaw (table : String) (id1 id2 rank1 rank2 : Nat)

/-- The database: tables keyed by their full (prefixed) name, plus the log of
executed statements. -/
structure Database where
  tables : List (String × Table)
  log : List Op

/-- Look a table up (an absent table reads as empty, with the counter at 1). -/
def dbGetTable (db : Database) (name : String) : Table :=
  match db.tables.lookup name with
  | some t => t
  | none => { rows := [], nextId := 1 }

/-- Store a table back under its name. -/
def dbSetTable (db : Database) (name : String) (t : Table) : Database :=
  { db with tables := (name, t) :: db.tables.filter (fun kv => kv.1 ≠ name) }

/-- Does the row's `id` column hold the number `n`? -/
def rowIdIs (r : Obj) (n : Nat) : Bool :=
  match r.getF "id" with
  | some (.num m) => m == n
  | _ => false

/-- `INSERT ... RETURNING id`: append the row (adding the auto-increment `id`
when the payload does not set one), bump the counter, return the new id. -/
def dbInsert (db : Database) (name : String) (payload : Obj) : Nat × Database :=
  let t := dbGetTable db name
  let row := if (payload.getF "id").isSome then payload
             else payload ++ [("id", .num t.nextId)]
  let db' := dbSetTable db name { rows := t.rows ++ [row], nextId := t.nextId + 1 }
  (t.nextId, { db' with log := db'.log ++ [.opInsert name payload] })

/-- `where` clause satisfaction: conjunction of SQL equalities on columns. -/
def whereMatch (w : Obj) (r : Obj) : Bool :=
  w.all (fun kv =>
    match r.getF kv.1 with
    | some v => sqlValEq v kv.2
    | none => false)

/-- `UPDATE ... SET payload WHERE w`: merge the payload into every matching
row; the affected-row count is the number of matched rows. -/
def dbUpdate (db : Database) (name : String) (payload : Obj) (w : Obj) : Nat × Database :=
  let t := dbGetTable db name
  let rows' := t.rows.map (fun r =>
    if whereMatch w r then payload.foldl (fun acc kv => acc.setF kv.1 kv.2) r else r)
  let n := t.rows.countP (fun r => whereMatch w r)
  let db' := dbSetTable db name { t with rows := rows' }
  (n, { db' with log := db'.log ++ [.opUpdate name payload w] })

/-- `DELETE ... WHERE w`: drop every matching row, return the count. -/
def dbDelete (db : Database) (name : String) (w : Obj) : Nat × Database :=
  let t := dbGetTable db name
  let n := t.rows.countP (fun r => whereMatch w r)
  let db' := dbSetTable db name { t with rows := t.rows.filter (fun r => ¬ whereMatch w r) }
  (n, { db' with log := db'.log ++ [.opDelete name w] })

/-- `DELETE ... WHERE id IN (ids)`. -/
def dbDeleteIn (db : Database) (name : String) (ids : List Nat) : Nat × Database :=
  let t := dbGetTable db name
  let inSet := fun r => ids.any (fun i => rowIdIs r i)
  let n := t.rows.countP inSet
  let db' := dbSetTable db name { t with rows := t.rows.filter (fun r => ¬ inSet r) }
  (n, { db' with log := db'.log ++ [.opDeleteIn name ids] })

/-- The raw two-row rank swap
`UPDATE t1 JOIN t2 ON t1.id = ? AND t2.id = ? SET t1.rank = ?, t2.rank = ?`:
when both ids match a row, the two rows get the two ranks and the affected
count is the number of matched rows; when either id is absent the join is
empty and nothing is affected. -/
def dbSortRaw (db : Database) (name : String) (id1 id2 rank1 rank2 : Nat) :
    Nat × Database :=
  let t := dbGetTable db name
  let logged := fun (d : Database) =>
    { d with log := d.log ++ [.opSortRaw name id1 id2 rank1 rank2] }
  if t.rows.any (fun r => rowIdIs r id1) && t.rows.any (fun r => rowIdIs r id2) then
    let rows' := t.rows.map (fun r =>
      if rowIdIs r id1 then r.setF "rank" (.num rank1)
      else if rowIdIs r id2 then r.setF "rank" (.num rank2)
      else r)
    let n := t.rows.countP (fun r => rowIdIs r id1 || rowIdIs r id2)
    (n, logged (dbSetTable db name { t with rows := rows' }))
  else
    (0, logged db)

/-! ## Field-selection trees and projection

`graphql-parse-fields` turns the resolver's `info` object into a nested
field tree; the embedding takes that parsed tree directly. -/

/-- A parsed field-selection tree: leaves mark selected scalar fields. -/
inductive FieldTree where
  | leaf
  | node (children : List (String × FieldTree))

/-- Child lookup, `parseFields(info).name`. -/
def FieldTree.child (t : FieldTree) (k : String) : Option FieldTree :=
  match t with
  | .leaf => none
  | .node cs => cs.lookup k

/-- Is the field `k` selected at the top level of the tree? -/
def FieldTree.hasKey (t : FieldTree) (k : String) : Bool :=
  match t with
  | .leaf => false
  | .node cs => cs.any (fun kv => kv.1 == k)

/-- `info[k] = true`: add a scalar selection for `k`. -/
def FieldTree.addKey (t : FieldTree) (k : String) : FieldTree :=
  match t with
  | .leaf => .node [(k, .leaf)]
  | .node cs => .node (cs ++ [(k, .leaf)])

/-- Modelled from the spec: the column-selection helper `selectBy`
(`sql/helpers`, not among the provided sources) "builds a nested-field
projection from the caller's field-selection request" — the subset of
columns to fetch, aliased so that `knexnest` reassembles rows with
camelCase keys. In the single-table model this is the per-row projection:
keep the `id` column and every stored column requested by the tree (tree
keys are camelCase, columns snake_case); `knexnest` then camelizes the
result keys. A missing tree (`undefined` info) selects every column. -/
def selectKeep (info : Option FieldTree) (storedKey : String) : Bool :=
  storedKey == "id" ||
    (match info with
     | none => true
     | some t =>
       match t with
       | .leaf => false
       | .node cs => cs.any (fun kv => decamelize kv.1 == storedKey))

/-- Modelled from the spec: projection of one stored row through
`selectBy`/`knexnest` — the `id` column (always selected by the helper's
aliasing) first, then the other kept columns with camelized keys. -/
def projectRow (info : Option FieldTree) (r : Obj) : Obj :=
  (match r.getF "id" with
   | some v => [("id", v)]
   | none => []) ++
  ((r.filter (fun kv => kv.1 ≠ "id" && selectKeep info kv.1)).map
    (fun kv => (camelize kv.1, kv.2)))

/-! ## Ordering (SQL `ORDER BY` via insertion sort, a stable sort) -/

/-- Insert into a sorted list. -/
def insertLe {α : Type} (le : α → α → Bool) (x : α) : List α → List α
  | [] => [x]
  | y :: ys => if le x y then x :: y :: ys else y :: insertLe le x ys

/-- Stable insertion sort. -/
def sortLe {α : Type} (le : α → α → Bool) : List α → List α
  | [] => []
  | x :: xs => insertLe le x (sortLe le xs)

/-- Row comparison for `ORDER BY col` (ascending when `asc`). -/
def rowLe (col : String) (asc : Bool) (r1 r2 : Obj) : Bool :=
  if asc then optValLe (r1.getF col) (r2.getF col)
  else optValLe (r2.getF col) (r1.getF col)

/-- A qualified SQL column reference (`table.col`) resolves to its column
part; an unqualified one is itself. (The single-table model reads joined
columns as plain columns of the row.) -/
def colNamePart (col : String) : String :=
  (col.splitOn ".").getLastD col

/-! ## The Crud class -/

/-- A `Crud` instance: table-name prefix (source field `prefix`, renamed
because `prefix` is a Lean keyword), table name, and schema. -/
structure Crud where
  pfx : String
  tableName : String
  schema : Schema

/-- The full table name `${this.prefix}${this.tableName}`. -/
def Crud.fullTable (c : Crud) : String :=
  c.pfx ++ c.tableName

/-- A field error `{ field, message }` (common/FieldError entries). -/
structure FieldErr where
  field : String
  message : String
deriving DecidableEq

/-- Arguments of the list queries. -/
structure OrderBySpec where
  column : Option String
  order : Option String

/-- The free-text filter argument. -/
structure SearchFilter where
  searchText : Option String

/-- `{ limit, offset, orderBy, filter }`. -/
structure ListArgs where
  limit : Option Nat
  offset : Option Nat
  orderBy : Option OrderBySpec
  filter : Option SearchFilter

/-- Truthiness of `orderBy && orderBy.column` (an absent spec, an absent
column and an empty-string column are all falsy). -/
def obHasColumn : Option OrderBySpec → Bool
  | none => false
  | some o =>
    match o.column with
    | none => false
    | some c => c ≠ ""

/-- The `orderBy.order` default: `'asc'` unless an order is given. -/
def obOrder : Option OrderBySpec → String
  | none => "asc"
  | some o =>
    match o.order with
    | none => "asc"
    | some s => s

/-- The column-resolution loop of `_getList`: for each schema key equal to
the requested column, a nested schema redirects to
`${decamelize(type.name)}.${sortBy}` (the related table's sort-by key,
defaulting to `name`, last marked key wins); otherwise the column becomes
`${tableName}.${decamelize(column)}`. -/
def resolveOrderColumn (schema : Schema) (tableName : String) (column : String) : String :=
  schema.fields.foldl
    (fun col f =>
      if col = f.1 then
        match f.2.type with
        | .schemaT s =>
          let sortBy := s.fields.foldl (fun sb rf => if rf.sortBy then rf.name else sb) "name"
          decamelize s.name ++ "." ++ sortBy
        | _ => tableName ++ "." ++ decamelize col
      else col)
    column

/-- Truthiness of the search filter:
`has(filter, 'searchText') && filter.searchText !== ''`. -/
def searchActive : Option SearchFilter → Bool
  | none => false
  | some f =>
    match f.searchText with
    | none => false
    | some s => s ≠ ""

/-- The `OR`-chained `LIKE` across all fields flagged searchable. (The source
uses the schema key verbatim as the column name here, without decamelizing.) -/
def rowSearchMatch (schema : Schema) (txt : String) (r : Obj) : Bool :=
  schema.fields.any (fun f => f.2.searchText && likeMatch (r.getF f.1) txt)

/-- The `WHERE` stage of `_getList`: when
`has(filter, 'searchText') && filter.searchText !== ''`, keep the rows
matched by the `OR`-chained `LIKE`; otherwise no restriction. -/
def applySearch (schema : Schema) (filter : Option SearchFilter)
    (rows : List Obj) : List Obj :=
  if searchActive filter then
    match filter with
    | some f =>
      match f.searchText with
      | some txt => rows.filter (fun r => rowSearchMatch schema txt r)
      | none => rows
    | none => rows
  else rows

/-- The `ORDER BY` stage of `_getList`: with a truthy `orderBy.column`, sort
by the resolved column in the requested direction (`'asc'` unless
`orderBy.order` says otherwise); with no column requested, sort ascending by
the table's `id` column (`queryBuilder.orderBy(tableName.id)`). -/
def applyOrder (schema : Schema) (tableName : String)
    (orderBy : Option OrderBySpec) (rows : List Obj) : List Obj :=
  if obHasColumn orderBy then
    match orderBy with
    | some o =>
      match o.column with
      | some col =>
        sortLe
          (rowLe (colNamePart (resolveOrderColumn schema tableName col))
            (obOrder orderBy ≠ "desc"))
          rows
      | none => rows
    | none => rows
  else
    sortLe (rowLe "id" true) rows

/-- The `OFFSET` stage (applied only when the argument is truthy). -/
def applyOffsetStage (offset : Option Nat) (rows : List Obj) : List Obj :=
  match offset with
  | some o => if o ≠ 0 then rows.drop o else rows
  | none => rows

/-- The `LIMIT` stage (applied only when the argument is truthy). -/
def applyLimitStage (limit : Option Nat) (rows : List Obj) : List Obj :=
  match limit with
  | some l => if l ≠ 0 then rows.take l else rows
  | none => rows

/-- The `OFFSET`/`LIMIT` stage of `_getList` (each applied only when the
argument is truthy; SQL applies `OFFSET` before `LIMIT`). -/
def applyWindow (limit offset : Option Nat) (rows : List Obj) : List Obj :=
  applyLimitStage limit (applyOffsetStage offset rows)

/-- `_getList({ limit, offset, orderBy, filter }, info)`: the base query on
the prefixed table with the projection from `selectBy`, a `limit`/`offset`
when truthy, `ORDER BY` the requested column (resolved through the schema)
or by `${tableName}.id` when no column is requested, and the search filter.
SQL evaluation order: `WHERE`, then `ORDER BY`, then `OFFSET`/`LIMIT`, then
the projection (`knexnest` reassembly). -/
def Crud._getList (c : Crud) (args : ListArgs) (info : Option FieldTree)
    (db : Database) : List Obj :=
  (applyWindow args.limit args.offset
    (applyOrder c.schema c.tableName args.orderBy
      (applySearch c.schema args.filter (dbGetTable db c.fullTable).rows))).map
    (projectRow info)

/-- `getList(args, info)`: `_getList` with the parsed selection tree. -/
def Crud.getList (c : Crud) (args : ListArgs) (info : FieldTree)
    (db : Database) : List Obj :=
  c._getList args (some info) db

/-- `getTotal()`: `SELECT COUNT(DISTINCT id) AS count` over the prefixed
table (`NULL` ids are not counted). -/
def Crud.getTotal (c : Crud) (db : Database) : Nat :=
  let ids := (dbGetTable db c.fullTable).rows.filterMap (fun r =>
    match r.getF "id" with
    | some v => if isNullV v then none else some v
    | none => none)
  (ids.foldl
    (fun acc v => if acc.any (fun w => sqlValEq v w) then acc else v :: acc)
    []).length

/-- `pageInfo` of a paginated result. -/
structure PageInfo where
  totalCount : Nat
  hasNextPage : Bool

/-- A paginated result `{ edges, pageInfo }`. -/
structure Paginated where
  edges : List Obj
  pageInfo : PageInfo

/-- `getPaginated(args, info)`: list the edges under the `edges` selection,
count via the separate `getTotal` query, and signal `hasNextPage` by
`edges && edges.length === args.limit` (the row list result is truthy, so
this is the length comparison; with no `limit` requested it is false). -/
def Crud.getPaginated (c : Crud) (args : ListArgs) (info : FieldTree)
    (db : Database) : Paginated :=
  let edges := c._getList args (info.child "edges") db
  let count := c.getTotal db
  { edges := edges
    pageInfo :=
      { totalCount := count
        hasNextPage :=
          match args.limit with
          | some l => edges.length == l
          | none => false } }

/-- `_get({ where }, info)`: single row by `${tableName}.id = where.id`
with the single-object projection (an absent `where.id` binds SQL `NULL`,
which matches nothing). -/
def Crud._get (c : Crud) (whereC : Obj) (info : Option FieldTree)
    (db : Database) : Option Obj :=
  match whereC.getF "id" with
  | none => none
  | some idv =>
    ((dbGetTable db c.fullTable).rows.find? (fun r =>
      match r.getF "id" with
      | some v => sqlValEq v idv
      | none => false)).map (projectRow info)

/-- The result of `get`: the object `{ node }`. As a JS object it is always
truthy, whether or not `node` is `null`. -/
structure GetRes where
  node : Option Obj

/-- JS truthiness of the `{ node }` object returned by `get`: an object is
always truthy. -/
def getResTruthy (_ : GetRes) : Bool := true

/-- `get(args, info)`: `{ node: await this._get(args, parseFields(info).node) }`. -/
def Crud.get (c : Crud) (whereC : Obj) (info : FieldTree) (db : Database) : GetRes :=
  { node := c._get whereC (info.child "node") db }

/-! ## Mutations -/

/-- The resolver context: the map of sibling `Crud` instances keyed by
pascalized type name (`ctx[pascalize(key)]`). -/
abbrev Ctx := List (String × Crud)

/-- The foreign-key property name injected into nested creates:
`${camelize(this.schema.name)}Id`. -/
def fkName (c : Crud) : String :=
  camelize c.schema.name ++ "Id"

/-- The nested-entry extraction loop shared by `create` and `update`: for
each schema key whose declared type is array-of-schema and whose current
payload value is truthy, push `{ key, data: data[key] }` and
`delete data[key]`. Returns the mutated payload (the caller-visible state of
the `data` argument after the call) and the extracted entries in order.
`extractStep` is one iteration of the loop. -/
def extractStep (acc : Obj × List (String × Value)) (f : String × FieldDesc) :
    Obj × List (String × Value) :=
  if f.2.type.isArrayB then
    match acc.1.getF f.1 with
    | some v =>
      if valTruthy v then (acc.1.eraseF f.1, acc.2 ++ [(f.1, v)]) else acc
    | none => acc
  else acc

/-- The loop body applied over `schema.keys()`. -/
def extractNested (schema : Schema) (data : Obj) : Obj × List (String × Value) :=
  schema.fields.foldl extractStep (data, [])

/-- The caller-visible state of the mutated `data` argument after
`create`/`update` return: the extraction loop's deletions are the only
writes the methods perform on the `data` object itself. -/
def mutatedData (c : Crud) (data : Obj) : Obj :=
  (extractNested c.schema data).1

/-- The `create` list of a nested entry's data, `nested.data.create`
(absent or not an object: no entries). -/
def subCreates : Value → List Obj
  | .sub (some l) _ _ => l
  | _ => []

/-- The `update` list of a nested entry's data, `nested.data.update`. -/
def subUpdates : Value → List (Obj × Obj)
  | .sub _ (some l) _ => l
  | _ => []

/-- The `delete` list of a nested entry's data, `nested.data.delete`. -/
def subDeletes : Value → List Obj
  | .sub _ _ (some l) => l
  | _ => []

/-- `_create(data)`:
`knex(prefix+table).insert(decamelizeKeys(data)).returning('id')`. -/
def Crud._create (c : Crud) (data : Obj) (db : Database) : Nat × Database :=
  dbInsert db c.fullTable (decamelizeKeys data)

/-- The result of a public mutation: a `{ node }` payload, a `{ count }`
payload, an `{ errors }` object, or JS `undefined` (a body that falls off
the end of its `try` block without returning). -/
inductive CrudResult where
  | nodeRes (node : Option Obj)
  | countRes (count : Nat)
  | errorsRes (errors : List FieldErr)
  | undef

/-- The nested-create fan-out of `create`/`update`: for each extracted entry,
for each element of its `create` list, set the foreign-key property to the
parent id and run `ctx[pascalize(key)]._create` on it. A key missing from
the context makes the un-awaited async callback throw a `TypeError` inside
its own promise, which is dropped without reaching the caller, so no insert
happens for that entry. `nestedCreateStep` handles one extracted entry. -/
def nestedCreateStep (ctx : Ctx) (fk : String) (idv : Value)
    (db : Database) (e : String × Value) : Database :=
  match ctx.lookup (pascalize e.1) with
  | some child =>
    (subCreates e.2).foldl
      (fun dbA cr => (child._create (cr.setF fk idv) dbA).2)
      db
  | none => db

/-- The fan-out over all extracted entries. -/
def runNestedCreates (ctx : Ctx) (fk : String) (idv : Value)
    (nested : List (String × Value)) (db : Database) : Database :=
  nested.foldl (nestedCreateStep ctx fk idv) db

/-- `create({ data }, ctx, info)`: an empty `FieldError`'s `throwIf()` is a
no-op; extract the nested entries, insert the base row, fan the nested
creates out with the new id under the foreign-key property, and return
`this.get({ where: { id } }, info)`. -/
def Crud.create (c : Crud) (data : Obj) (ctx : Ctx) (info : FieldTree)
    (db : Database) : CrudResult × Database :=
  let en := extractNested c.schema data
  let r1 := c._create en.1 db
  let db2 := runNestedCreates ctx (fkName c) (.num r1.1) en.2 r1.2
  (.nodeRes (c.get [("id", .num r1.1)] info db2).node, db2)

/-- `_update({ data, where })`:
`knex(prefix+table).update(decamelizeKeys(data)).where(where)`. -/
def Crud._update (c : Crud) (data whereC : Obj) (db : Database) : Nat × Database :=
  dbUpdate db c.fullTable (decamelizeKeys data) whereC

/-- `_delete({ where })`: `knex(prefix+table).where(where).del()`. -/
def Crud._delete (c : Crud) (whereC : Obj) (db : Database) : Nat × Database :=
  dbDelete db c.fullTable whereC

/-- The nested update/delete fan-out of `update`: nested creates get
`args.where.id` as foreign key (an absent `where.id` binds `undefined`,
stored as SQL `NULL`); nested updates run `ctx[...]._update(update)` and
nested deletes `ctx[...]._delete({ where })`. Context misses behave as in
`runNestedCreates`. `nestedAllStep` handles one extracted entry. -/
def nestedAllStep (ctx : Ctx) (fk : String) (idv : Value)
    (db : Database) (e : String × Value) : Database :=
  match ctx.lookup (pascalize e.1) with
  | some child =>
    (subDeletes e.2).foldl
      (fun dbA w => (child._delete w dbA).2)
      ((subUpdates e.2).foldl
        (fun dbA du => (child._update du.1 du.2 dbA).2)
        ((subCreates e.2).foldl
          (fun dbA cr => (child._create (cr.setF fk idv) dbA).2)
          db))
  | none => db

/-- The fan-out over all extracted entries of `update`. -/
def runNestedAll (ctx : Ctx) (fk : String) (idv : Value)
    (nested : List (String × Value)) (db : Database) : Database :=
  nested.foldl (nestedAllStep ctx fk idv) db

/-- The foreign-key value `update` injects into nested creates:
`args.where.id`, or JS `undefined` (stored as SQL `NULL`) when the where
object has no id. -/
def whereIdVal (whereC : Obj) : Value :=
  match whereC.getF "id" with
  | some v => v
  | none => .vnull

/-- `update(args, ctx, info)` with `args = { data, where }`: extract the
nested entries from `args.data`, run the base `_update`, dispatch the nested
create/update/delete sub-requests, and return `this.get(args, info)`. -/
def Crud.update (c : Crud) (data whereC : Obj) (ctx : Ctx) (info : FieldTree)
    (db : Database) : CrudResult × Database :=
  let en := extractNested c.schema data
  let db1 := (c._update en.1 whereC db).2
  let db2 := runNestedAll ctx (fkName c) (whereIdVal whereC) en.2 db1
  (.nodeRes (c.get whereC info db2).node, db2)

/-- `delete(args, info)`: fetch the node first; the `if (!node)` guard tests
the `{ node }` wrapper object, which is always truthy, so the
`'Node does not exist.'` branch never runs; then delete by the same filter
and return the pre-deletion node when at least one row was affected, or the
zero-rows field error otherwise (thrown by `throwIf` and returned by the
`catch` as `{ errors }`). -/
def Crud.delete (c : Crud) (whereC : Obj) (info : FieldTree)
    (db : Database) : CrudResult × Database :=
  let node := c.get whereC info db
  if getResTruthy node = false then
    (.errorsRes [⟨"delete", "Node does not exist."⟩], db)
  else
    if (c._delete whereC db).1 ≠ 0 then
      (.nodeRes node.node, (c._delete whereC db).2)
    else
      (.errorsRes [⟨"delete", "Could not delete Node. Please try again later."⟩],
       (c._delete whereC db).2)

/-- The four positional bindings of the `_sort` raw statement. -/
structure SortData where
  id1 : Nat
  id2 : Nat
  rank1 : Nat
  rank2 : Nat

/-- `_sort({ data })`: the raw two-row rank-swap update; the mysql driver
reports the affected-row count. -/
def Crud._sort (c : Crud) (d : SortData) (db : Database) : Nat × Database :=
  dbSortRaw db c.fullTable d.id1 d.id2 d.rank1 d.rank2

/-- `sort(args)`: an empty `FieldError`'s `throwIf()` is a no-op; run the
swap and return `{ count: affectedRows }` when positive, otherwise the
zero-rows field error. -/
def Crud.sort (c : Crud) (d : SortData) (db : Database) : CrudResult × Database :=
  if (c._sort d db).1 > 0 then
    (.countRes (c._sort d db).1, (c._sort d db).2)
  else
    (.errorsRes [⟨"sort", "Could not sort Node. Please try again later."⟩],
     (c._sort d db).2)

/-- Arguments of the bulk mutations: `{ data, where: { id_in } }`. -/
structure ManyArgs where
  data : Obj
  id_in : List Nat

/-- `updateMany(args)`: the body logs the arguments, constructs a
`FieldError`, records the not-implemented error with `setError` — and then
ends: the active statement `e.throwIf()` is absent (the remainder is
commented out), so nothing is thrown, the `catch` never runs, and the
function returns `undefined` without touching the database. -/
def Crud.updateMany (_ : Crud) (_ : ManyArgs) (db : Database) : CrudResult × Database :=
  (.undef, db)

/-- `_deleteMany({ where: { id_in } })`:
`knex(prefix+table).whereIn('id', id_in).del()`. -/
def Crud._deleteMany (c : Crud) (ids : List Nat) (db : Database) : Nat × Database :=
  dbDeleteIn db c.fullTable ids

/-- `deleteMany(args)`: delete by the id list; `{ count }` when positive,
otherwise the zero-rows field error. -/
def Crud.deleteMany (c : Crud) (ids : List Nat) (db : Database) : CrudResult × Database :=
  if (c._deleteMany ids db).1 > 0 then
    (.countRes (c._deleteMany ids db).1, (c._deleteMany ids db).2)
  else
    (.errorsRes [⟨"delete", "Could not delete any of selected Node. Please try again later."⟩],
     (c._deleteMany ids db).2)

/-- Modelled from the spec: the helper `orderedFor` (`sql/helpers`, not
among the provided sources) implements the batched-loader pattern —
"re-orders results to match the input id order": with `toMany = false`, one
result slot per input id, holding the first row whose `key` field equals
that id. -/
def orderedFor (res : List Obj) (ids : List Nat) (key : String) : List (Option Obj) :=
  ids.map (fun i =>
    res.find? (fun r =>
      match r.getF key with
      | some (.num m) => m == i
      | _ => false))

/-- `getByIds(ids, by, Obj, info)`: add `${by}Id` to the parsed selection,
select from the related instance's table where
`${tableName}.${decamelize(by)}_id` is in `ids`, and re-order the projected
rows to the input id order by the `${by}Id` field. (Source parameters `by`
and `Obj` are renamed: `by` is a Lean keyword and `Obj` the row type.) -/
def Crud.getByIds (ids : List Nat) (byName : String) (relObj : Crud)
    (info : FieldTree) (db : Database) : List (Option Obj) :=
  let info' := info.addKey (byName ++ "Id")
  let fkCol := decamelize byName ++ "_id"
  let sel := (dbGetTable db relObj.fullTable).rows.filter (fun r =>
    match r.getF fkCol with
    | some (.num m) => ids.any (fun i => i == m)
    | _ => false)
  let res := sel.map (projectRow (some info'))
  orderedFor res ids (byName ++ "Id")

/-! ## The public mutation surface as one dispatch -/

/-- A call to one of the six public mutations. -/
inductive MutationCall where
  | mCreate (data : Obj)
  | mUpdate (data whereC : Obj)
  | mDelete (whereC : Obj)
  | mSort (d : SortData)
  | mUpdateMany (args : ManyArgs)
  | mDeleteMany (ids : List Nat)

/-- Is the call the bulk-update stub? -/
def MutationCall.isUpdateMany : MutationCall → Bool
  | .mUpdateMany _ => true
  | _ => false

/-- Dispatch a public mutation call to its method. -/
def runMutation (c : Crud) (mc : MutationCall) (ctx : Ctx) (info : FieldTree)
    (db : Database) : CrudResult × Database :=
  match mc with
  | .mCreate data => c.create data ctx info db
  | .mUpdate data whereC => c.update data whereC ctx info db
  | .mDelete whereC => c.delete whereC info db
  | .mSort d => c.sort d db
  | .mUpdateMany args => c.updateMany args db
  | .mDeleteMany ids => c.deleteMany ids db

/-- Does the result carry a payload or an `{ errors }` object (rather than
being `undefined`)? -/
def CrudResult.isHandled : CrudResult → Bool
  | .undef => false
  | _ => true

/-! ## Concrete fixtures (schemas, instances, databases) used by witnesses -/

/-- Does the row's `id` column hold a number? (SQL integer primary key.) -/
def isNumIdB (r : Obj) : Bool :=
  match r.getF "id" with
  | some (.num _) => true
  | _ => false

/-- Example parent schema: a `post` with a searchable scalar `title` and a
nested collection `comments` (array-of-schema). -/
def exSchema : Schema :=
  { name := "post"
    fields := [("title", ⟨.scalar, true⟩),
               ("comments", ⟨.arrayOf ⟨"comment", []⟩, false⟩)] }

/-- Example parent `Crud` instance. -/
def exCrud : Crud := { pfx := "", tableName := "post", schema := exSchema }

/-- Example child `Crud` instance for the nested collection. -/
def exChild : Crud := { pfx := "", tableName := "comments", schema := ⟨"comment", []⟩ }

/-- Example resolver context binding the pascalized nested key. -/
def exCtx : Ctx := [("Comments", exChild)]

/-- The empty database. -/
def exDbEmpty : Database := { tables := [], log := [] }

/-- A database with two `post` rows. -/
def exDb2 : Database :=
  { tables := [("post",
      { rows := [[("id", .num 1), ("rank", .num 5), ("title", .str "a")],
                 [("id", .num 2), ("rank", .num 7), ("title", .str "b")]]
        nextId := 3 })]
    log := [] }

/-- A database whose `post` rows are stored out of id order. -/
def exDb9 : Database :=
  { tables := [("post",
      { rows := [[("id", .num 2), ("title", .str "b")],
                 [("id", .num 1), ("title", .str "a")]]
        nextId := 3 })]
    log := [] }

/-- A database whose `comments` rows are stored in the reverse of the id
order requested by the `getByIds` witness. -/
def exDbC : Database :=
  { tables := [("comments",
      { rows := [[("id", .num 10), ("post_id", .num 2)],
                 [("id", .num 11), ("post_id", .num 1)]]
        nextId := 12 })]
    log := [] }

/-- A `node` field selection. -/
def exInfoNode : FieldTree := .node [("node", .node [("id", .leaf), ("title", .leaf)])]

/-- An `edges` field selection. -/
def exInfoEdges : FieldTree := .node [("edges", .node [("id", .leaf)])]

/-- List arguments requesting one row. -/
def exArgs1 : ListArgs := { limit := some 1, offset := none, orderBy := none, filter := none }

/-- List arguments with no limit, offset, order or filter. -/
def exArgsAll : ListArgs := { limit := none, offset := none, orderBy := none, filter := none }

/-- A create payload with a truthy nested collection of two entries. -/
def exData : Obj :=
  [("title", .str "t"),
   ("comments", .sub (some [[("body", .str "b1")], [("body", .str "b2")]]) none none)]

/-- A create payload whose array-of-schema field holds the falsy value
`null`. -/
def exDataNull : Obj := [("title", .str "t"), ("comments", .vnull)]

/-- A create payload with no array-of-schema field at all. -/
def exDataFlat : Obj := [("title", .str "x")]

/-- The table name a nested create targets: the sibling instance the context
binds under the pascalized key. -/
def ctxTable (ctx : Ctx) (k : String) : String :=
  match ctx.lookup (pascalize k) with
  | some child => child.fullTable
  | none => ""

/-- The insert statements the nested-create fan-out issues: one per entry of
each extracted collection's `create` list, with the foreign-key property set
to the parent id, against the bound sibling's table (none for a key the
context does not bind). -/
def childCreateOps (ctx : Ctx) (fk : String) (idv : Value)
    (nested : List (String × Value)) : List Op :=
  (nested.map (fun e =>
    match ctx.lookup (pascalize e.1) with
    | some child =>
      (subCreates e.2).map (fun cr =>
        Op.opInsert child.fullTable (decamelizeKeys (cr.setF fk idv)))
    | none => [])).flatten

/-- The statements the `update` fan-out issues per extracted entry: the
child inserts (each entry of the `create` list with the foreign-key property
set), then the child updates, then the child deletes — none for a key the
context does not bind. -/
def childAllOps (ctx : Ctx) (fk : String) (idv : Value)
    (nested : List (String × Value)) : List Op :=
  (nested.map (fun e =>
    match ctx.lookup (pascalize e.1) with
    | some child =>
      (subCreates e.2).map (fun cr =>
        Op.opInsert child.fullTable (decamelizeKeys (cr.setF fk idv)))
      ++ (subUpdates e.2).map (fun du =>
        Op.opUpdate child.fullTable (decamelizeKeys du.1) du.2)
      ++ (subDeletes e.2).map (fun w =>
        Op.opDelete child.fullTable w)
    | none => [])).flatten

/-! ## Helper lemmas on objects -/

/-- Deleting a key removes its binding. -/
theorem getF_eraseF_self (o : Obj) (k : String) : (o.eraseF k).getF k = none := by
  induction o with
  | nil => rfl
  | cons kv t ih =>
    by_cases h : kv.1 = k
    · simpa [Obj.eraseF, h] using ih
    · simpa [Obj.eraseF, Obj.getF, h] using ih

/-- Deleting one key leaves the other keys' bindings unchanged. -/
theorem getF_eraseF_ne (o : Obj) (j k : String) (h : j ≠ k) :
    (o.eraseF j).getF k = o.getF k := by
  induction o with
  | nil => rfl
  | cons kv t ih =>
    show (if kv.1 = j then Obj.eraseF t j else kv :: Obj.eraseF t j).getF k
        = if kv.1 = k then some kv.2 else Obj.getF t k
    by_cases hj : kv.1 = j
    · rw [if_pos hj, if_neg (fun hkk => h (hj.symm.trans hkk)), ih]
    · rw [if_neg hj]
      show (if kv.1 = k then some kv.2 else (Obj.eraseF t j).getF k) = _
      by_cases hk : kv.1 = k
      · rw [if_pos hk, if_pos hk]
      · rw [if_neg hk, if_neg hk, ih]

/-- Looking a key up past a part that does not bind it. -/
theorem getF_append_none (o₁ o₂ : Obj) (k : String) (h : o₁.getF k = none) :
    ((o₁ ++ o₂ : Obj)).getF k = o₂.getF k := by
  induction o₁ with
  | nil => rfl
  | cons kv t ih =>
    by_cases hk : kv.1 = k
    · simp [Obj.getF, hk] at h
    · simp only [Obj.getF, hk, if_false, List.cons_append, if_neg hk] at h ⊢
      exact ih h

/-- Assignment binds the key. -/
theorem getF_setF_self (o : Obj) (k : String) (v : Value) :
    (o.setF k v).getF k = some v := by
  unfold Obj.setF
  rw [getF_append_none _ _ _ (getF_eraseF_self o k)]
  simp [Obj.getF]

/-! ## Helper lemmas on the extraction loop -/

/-- One extraction step never adds a binding. -/
theorem extractStep_getF_none (acc : Obj × List (String × Value))
    (f : String × FieldDesc) (k : String) (h : acc.1.getF k = none) :
    ((extractStep acc f).1).getF k = none := by
  unfold extractStep
  by_cases harr : f.2.type.isArrayB
  · simp only [harr, if_true]
    cases hv : acc.1.getF f.1 with
    | none => exact h
    | some v =>
      by_cases ht : valTruthy v
      · simp only [ht, if_true]
        by_cases hk : f.1 = k
        · exact hk ▸ getF_eraseF_self acc.1 f.1
        · rw [getF_eraseF_ne acc.1 f.1 k hk]
          exact h
      · simp only [ht, if_false]
        exact h
  · simp only [harr, if_false]
    exact h

/-- A missing binding stays missing through the whole loop. -/
theorem extract_foldl_getF_none (fields : List (String × FieldDesc))
    (acc : Obj × List (String × Value)) (k : String) (h : acc.1.getF k = none) :
    ((fields.foldl extractStep acc).1).getF k = none := by
  induction fields generalizing acc with
  | nil => exact h
  | cons f rest ih =>
    rw [List.foldl_cons]
    exact ih _ (extractStep_getF_none acc f k h)

/-- The heart of the stripping property: a key some field of the list
declares as array-of-schema, currently bound to a truthy value, is unbound
once the loop has run. -/
theorem extract_foldl_strips (fields : List (String × FieldDesc))
    (acc : Obj × List (String × Value)) (k : String)
    (hany : (fields.any (fun f => f.1 == k && f.2.type.isArrayB)) = true)
    (ht : valTruthyOpt (acc.1.getF k) = true) :
    ((fields.foldl extractStep acc).1).getF k = none := by
  induction fields generalizing acc with
  | nil => simp at hany
  | cons f rest ih =>
    rw [List.foldl_cons]
    by_cases hm : (f.1 == k && f.2.type.isArrayB) = true
    · have hk : f.1 = k := by
        have := (Bool.and_eq_true _ _).mp hm
        exact beq_iff_eq.mp this.1
      have harr : f.2.type.isArrayB = true := ((Bool.and_eq_true _ _).mp hm).2
      cases hv : acc.1.getF k with
      | none => rw [hv] at ht; simp [valTruthyOpt] at ht
      | some v =>
        have htv : valTruthy v = true := by
          rw [hv] at ht; simpa [valTruthyOpt] using ht
        have hstep : (extractStep acc f).1 = acc.1.eraseF f.1 := by
          unfold extractStep
          rw [harr, if_pos rfl, hk, hv]
          simp [htv]
        apply extract_foldl_getF_none
        rw [hstep, hk]
        exact getF_eraseF_self acc.1 k
    · have hrest : (rest.any (fun f => f.1 == k && f.2.type.isArrayB)) = true := by
        rcases (List.any_eq_true).mp hany with ⟨g, hg, hgp⟩
        rcases List.mem_cons.mp hg with rfl | hgr
        · exact absurd hgp hm
        · exact (List.any_eq_true).mpr ⟨g, hgr, hgp⟩
      apply ih _ hrest
      -- the step either leaves the object alone or erases a different key
      unfold extractStep
      by_cases harr : f.2.type.isArrayB
      · simp only [harr, if_true]
        cases hv : acc.1.getF f.1 with
        | none => exact ht
        | some v =>
          by_cases htv : valTruthy v
          · simp only [htv, if_true]
            have hk : f.1 ≠ k := by
              intro hkk
              exact hm (by simp [hkk, harr])
            rw [getF_eraseF_ne acc.1 f.1 k hk]
            exact ht
          · simp only [htv, if_false]
            exact ht
      · simp only [harr, if_false]
        exact ht

/-- Stripping property of `extractNested` in terms of schemas: every key
declared array-of-schema whose payload value is truthy is unbound in the
mutated payload. -/
theorem extractNested_strips (schema : Schema) (data : Obj) (k : String)
    (hk : schema.isArrayKeyB k = true)
    (ht : valTruthyOpt (data.getF k) = true) :
    ((extractNested schema data).1).getF k = none := by
  unfold extractNested
  exact extract_foldl_strips schema.fields (data, []) k hk ht

/-! ## Helper lemmas on the statement log -/

/-- `_create` appends exactly its insert statement to the log. -/
theorem log_create (c : Crud) (p : Obj) (db : Database) :
    (c._create p db).2.log = db.log ++ [.opInsert c.fullTable (decamelizeKeys p)] := rfl

/-- `_create` returns the table's auto-increment counter. -/
theorem fst_create (c : Crud) (p : Obj) (db : Database) :
    (c._create p db).1 = (dbGetTable db c.fullTable).nextId := rfl

/-- A run of sibling `_create`s appends one insert statement per payload. -/
theorem log_foldl_creates (child : Crud) (fk : String) (idv : Value)
    (l : List Obj) (db : Database) :
    (l.foldl (fun dbA cr => (child._create (cr.setF fk idv) dbA).2) db).log
      = db.log
        ++ l.map (fun cr => Op.opInsert child.fullTable (decamelizeKeys (cr.setF fk idv))) := by
  induction l generalizing db with
  | nil => simp
  | cons cr rest ih =>
    rw [List.foldl_cons, ih, log_create]
    simp

/-- The nested-create fan-out appends exactly `childCreateOps`. -/
theorem log_runNestedCreates (ctx : Ctx) (fk : String) (idv : Value)
    (nested : List (String × Value)) (db : Database) :
    (runNestedCreates ctx fk idv nested db).log
      = db.log ++ childCreateOps ctx fk idv nested := by
  induction nested generalizing db with
  | nil => simp [runNestedCreates, childCreateOps]
  | cons e rest ih =>
    unfold runNestedCreates childCreateOps
    rw [List.foldl_cons, List.map_cons, List.flatten_cons]
    unfold runNestedCreates childCreateOps at ih
    rw [ih]
    unfold nestedCreateStep
    cases hl : ctx.lookup (pascalize e.1) with
    | some child =>
      rw [log_foldl_creates]
      simp
    | none => simp

/-- The statements `create` issues: the base insert of the stripped payload,
then the nested-create fan-out. -/
theorem log_crud_create (c : Crud) (data : Obj) (ctx : Ctx) (info : FieldTree)
    (db : Database) :
    (c.create data ctx info db).2.log
      = db.log
        ++ [.opInsert c.fullTable (decamelizeKeys (extractNested c.schema data).1)]
        ++ childCreateOps ctx (fkName c)
             (.num (dbGetTable db c.fullTable).nextId)
             (extractNested c.schema data).2 := by
  unfold Crud.create
  rw [log_runNestedCreates, log_create, fst_create]

/-! ## Helper lemmas on the sort stage -/

/-- Membership through insertion. -/
theorem mem_insertLe {α : Type} (le : α → α → Bool) (x a : α) (l : List α) :
    a ∈ insertLe le x l ↔ a = x ∨ a ∈ l := by
  induction l with
  | nil => simp [insertLe]
  | cons y ys ih =>
    unfold insertLe
    by_cases h : le x y = true
    · simp [h, List.mem_cons]
    · simp [h, List.mem_cons, ih]
      tauto

/-- Membership through sorting. -/
theorem mem_sortLe {α : Type} (le : α → α → Bool) (a : α) (l : List α) :
    a ∈ sortLe le l ↔ a ∈ l := by
  induction l with
  | nil => simp [sortLe]
  | cons x xs ih =>
    unfold sortLe
    rw [mem_insertLe]
    simp [ih, List.mem_cons]

/-- Inserting into a sorted list keeps it sorted, given comparability of the
new element with the list and transitivity on the elements involved. -/
theorem pairwise_insertLe {α : Type} (le : α → α → Bool) (x : α) (l : List α)
    (htot : ∀ y ∈ l, le x y = true ∨ le y x = true)
    (htrans : ∀ a, a ∈ x :: l → ∀ b, b ∈ x :: l → ∀ c, c ∈ x :: l →
      le a b = true → le b c = true → le a c = true)
    (hl : l.Pairwise (fun a b => le a b = true)) :
    (insertLe le x l).Pairwise (fun a b => le a b = true) := by
  induction l with
  | nil => simp [insertLe]
  | cons y ys ih =>
    rw [List.pairwise_cons] at hl
    obtain ⟨hy, hys⟩ := hl
    unfold insertLe
    by_cases hxy : le x y = true
    · rw [if_pos hxy]
      rw [List.pairwise_cons]
      refine ⟨?_, ?_⟩
      · intro b hb
        rcases List.mem_cons.mp hb with rfl | hbys
        · exact hxy
        · exact htrans x (by simp) y (by simp) b (by simp [hbys]) hxy (hy b hbys)
      · rw [List.pairwise_cons]
        exact ⟨hy, hys⟩
    · rw [if_neg hxy]
      rw [List.pairwise_cons]
      refine ⟨?_, ?_⟩
      · intro b hb
        rcases (mem_insertLe le x b ys).mp hb with hbx | hbys
        · subst hbx
          rcases htot y (by simp) with h | h
          · exact absurd h hxy
          · exact h
        · exact hy b hbys
      · refine ih ?_ ?_ hys
        · intro z hz
          exact htot z (by simp [hz])
        · intro a ha b hb c hc
          refine htrans a ?_ b ?_ c ?_
          · rcases List.mem_cons.mp ha with h | h
            · simp [h]
            · simp [h]
          · rcases List.mem_cons.mp hb with h | h
            · simp [h]
            · simp [h]
          · rcases List.mem_cons.mp hc with h | h
            · simp [h]
            · simp [h]

/-- Insertion sort sorts, given pairwise comparability and transitivity on
the list's elements. -/
theorem pairwise_sortLe {α : Type} (le : α → α → Bool) (l : List α)
    (htot : ∀ a ∈ l, ∀ b ∈ l, le a b = true ∨ le b a = true)
    (htrans : ∀ a, a ∈ l → ∀ b, b ∈ l → ∀ c, c ∈ l →
      le a b = true → le b c = true → le a c = true) :
    (sortLe le l).Pairwise (fun a b => le a b = true) := by
  induction l with
  | nil => simp [sortLe]
  | cons x xs ih =>
    unfold sortLe
    refine pairwise_insertLe le x (sortLe le xs) ?_ ?_ ?_
    · intro y hy
      rw [mem_sortLe] at hy
      exact htot x (by simp) y (by simp [hy])
    · intro a ha b hb c hc
      have hm : ∀ z, z ∈ x :: sortLe le xs → z ∈ x :: xs := by
        intro z hz
        rcases List.mem_cons.mp hz with rfl | h
        · simp
        · rw [mem_sortLe] at h
          simp [h]
      exact htrans a (hm a ha) b (hm b hb) c (hm c hc)
    · refine ih ?_ ?_
      · intro a ha b hb
        exact htot a (by simp [ha]) b (by simp [hb])
      · intro a ha b hb c hc
        exact htrans a (by simp [ha]) b (by simp [hb]) c (by simp [hc])

/-! ## Helper lemmas on the list-query pipeline -/

/-- The search stage only drops rows. -/
theorem mem_applySearch (schema : Schema) (f : Option SearchFilter)
    (rows : List Obj) (r : Obj) (h : r ∈ applySearch schema f rows) : r ∈ rows := by
  unfold applySearch at h
  split at h
  · split at h
    · split at h
      · exact List.mem_of_mem_filter h
      · exact h
    · exact h
  · exact h

/-- Without a truthy `orderBy.column`, the order stage sorts ascending by the
`id` column. -/
theorem applyOrder_no_column (schema : Schema) (tableName : String)
    (orderBy : Option OrderBySpec) (rows : List Obj)
    (h : obHasColumn orderBy = false) :
    applyOrder schema tableName orderBy rows = sortLe (rowLe "id" true) rows := by
  unfold applyOrder
  rw [h]
  simp

/-- The window stage takes a sublist. -/
theorem sublist_applyWindow (limit offset : Option Nat) (rows : List Obj) :
    List.Sublist (applyWindow limit offset rows) rows := by
  unfold applyWindow
  have hoff : List.Sublist (applyOffsetStage offset rows) rows := by
    unfold applyOffsetStage
    split
    · split
      · exact List.drop_sublist _ _
      · exact List.Sublist.refl rows
    · exact List.Sublist.refl rows
  refine List.Sublist.trans ?_ hoff
  unfold applyLimitStage
  split
  · split
    · exact List.take_sublist _ _
    · exact List.Sublist.refl _
  · exact List.Sublist.refl _

/-- The projection keeps the `id` field's value. -/
theorem projectRow_id (info : Option FieldTree) (r : Obj) (v : Value)
    (h : r.getF "id" = some v) : (projectRow info r).getF "id" = some v := by
  unfold projectRow
  rw [h]
  simp [Obj.getF]

/-- A row with a numeric id. -/
theorem isNumId_elim (r : Obj) (h : isNumIdB r = true) :
    ∃ n, r.getF "id" = some (.num n) := by
  unfold isNumIdB at h
  cases hv : r.getF "id" with
  | none => rw [hv] at h; simp at h
  | some v =>
    cases v with
    | num n => exact ⟨n, rfl⟩
    | str s => rw [hv] at h; simp at h
    | vnull => rw [hv] at h; simp at h
    | sub a b c => rw [hv] at h; simp at h

/-- The id order on rows with numeric ids is the numeric order. -/
theorem rowLe_id_num (r1 r2 : Obj) (n1 n2 : Nat)
    (h1 : r1.getF "id" = some (.num n1)) (h2 : r2.getF "id" = some (.num n2)) :
    rowLe "id" true r1 r2 = decide (n1 ≤ n2) := by
  unfold rowLe
  rw [if_pos rfl, h1, h2]
  rfl

/-- Rows with numeric ids are comparable under the id order. -/
theorem rowLe_id_total (r1 r2 : Obj) (h1 : isNumIdB r1 = true)
    (h2 : isNumIdB r2 = true) :
    rowLe "id" true r1 r2 = true ∨ rowLe "id" true r2 r1 = true := by
  obtain ⟨n1, hv1⟩ := isNumId_elim r1 h1
  obtain ⟨n2, hv2⟩ := isNumId_elim r2 h2
  rw [rowLe_id_num r1 r2 n1 n2 hv1 hv2, rowLe_id_num r2 r1 n2 n1 hv2 hv1]
  simp only [decide_eq_true_eq]
  exact Nat.le_total n1 n2

/-- The id order is transitive on rows with numeric ids. -/
theorem rowLe_id_trans (r1 r2 r3 : Obj) (h1 : isNumIdB r1 = true)
    (h2 : isNumIdB r2 = true) (h3 : isNumIdB r3 = true)
    (h12 : rowLe "id" true r1 r2 = true) (h23 : rowLe "id" true r2 r3 = true) :
    rowLe "id" true r1 r3 = true := by
  obtain ⟨n1, hv1⟩ := isNumId_elim r1 h1
  obtain ⟨n2, hv2⟩ := isNumId_elim r2 h2
  obtain ⟨n3, hv3⟩ := isNumId_elim r3 h3
  rw [rowLe_id_num r1 r2 n1 n2 hv1 hv2] at h12
  rw [rowLe_id_num r2 r3 n2 n3 hv2 hv3] at h23
  rw [rowLe_id_num r1 r3 n1 n3 hv1 hv3]
  simp only [decide_eq_true_eq] at h12 h23 ⊢
  exact Nat.le_trans h12 h23

/-- The list pipeline yields rows sorted ascending by `id` whenever no
order column is requested and the table's ids are numeric. -/
theorem pairwise_getList_id (c : Crud) (args : ListArgs) (info : Option FieldTree)
    (db : Database) (hOrd : obHasColumn args.orderBy = false)
    (hIds : ((dbGetTable db c.fullTable).rows.all isNumIdB) = true) :
    (c._getList args info db).Pairwise
      (fun r1 r2 => rowLe "id" true r1 r2 = true) := by
  unfold Crud._getList
  rw [applyOrder_no_column _ _ _ _ hOrd]
  have hIds' : ∀ r ∈ applySearch c.schema args.filter (dbGetTable db c.fullTable).rows,
      isNumIdB r = true := by
    intro r hr
    exact (List.all_eq_true.mp hIds) r (mem_applySearch _ _ _ _ hr)
  have hsorted :
      (sortLe (rowLe "id" true)
        (applySearch c.schema args.filter (dbGetTable db c.fullTable).rows)).Pairwise
        (fun a b => rowLe "id" true a b = true) := by
    apply pairwise_sortLe
    · intro a ha b hb
      exact rowLe_id_total a b (hIds' a ha) (hIds' b hb)
    · intro a ha b hb c3 hc hab hbc
      exact rowLe_id_trans a b c3 (hIds' a ha) (hIds' b hb) (hIds' c3 hc) hab hbc
  have hmemsorted : ∀ r ∈ sortLe (rowLe "id" true)
      (applySearch c.schema args.filter (dbGetTable db c.fullTable).rows),
      isNumIdB r = true := by
    intro r hr
    exact hIds' r ((mem_sortLe _ _ _).mp hr)
  have hwind := hsorted.sublist (sublist_applyWindow args.limit args.offset _)
  have hmemwind : ∀ r ∈ applyWindow args.limit args.offset (sortLe (rowLe "id" true)
      (applySearch c.schema args.filter (dbGetTable db c.fullTable).rows)),
      isNumIdB r = true := by
    intro r hr
    exact hmemsorted r ((sublist_applyWindow args.limit args.offset _).subset hr)
  rw [List.pairwise_map]
  refine List.Pairwise.imp_of_mem ?_ hwind
  intro a b ha hb hab
  obtain ⟨na, hna⟩ := isNumId_elim a (hmemwind a ha)
  obtain ⟨nb, hnb⟩ := isNumId_elim b (hmemwind b hb)
  rw [rowLe_id_num _ _ na nb (projectRow_id info a _ hna) (projectRow_id info b _ hnb)]
  rw [rowLe_id_num a b na nb hna hnb] at hab
  exact hab

/-! ## Remaining shared lemmas for the claims -/

/-- With every extracted key bound in the context, the fan-out issues exactly
one insert per entry of each extracted collection's `create` list. -/
theorem childCreateOps_of_bound (ctx : Ctx) (fk : String) (idv : Value)
    (nested : List (String × Value))
    (hctx : (nested.all (fun e => (ctx.lookup (pascalize e.1)).isSome)) = true) :
    childCreateOps ctx fk idv nested
      = (nested.map (fun e => (subCreates e.2).map (fun cr =>
          Op.opInsert (ctxTable ctx e.1) (decamelizeKeys (cr.setF fk idv))))).flatten := by
  induction nested with
  | nil => rfl
  | cons e rest ih =>
    rw [List.all_cons, Bool.and_eq_true] at hctx
    unfold childCreateOps at ih ⊢
    rw [List.map_cons, List.map_cons, List.flatten_cons, List.flatten_cons, ih hctx.2]
    unfold ctxTable
    cases hl : ctx.lookup (pascalize e.1) with
    | some child => rfl
    | none =>
      rw [hl] at hctx
      simp at hctx

/-! ## The claims -/

/-- C1: for every argument object, `updateMany` is claimed to return an
object whose `errors` field carries the "not implemented" field error. The
code records that error with `setError` but never calls `throwIf`, so the
`catch` never runs and the method returns `undefined` — neither an errors
object nor a payload — leaving the database untouched. -/
theorem c1_updateMany_returns_undefined (c : Crud) (args : ManyArgs)
    (db : Database) : Crud.updateMany c args db = (.undef, db) := rfl

/-- C2: a `delete` whose filter matches no row is claimed to report the
"Node does not exist." error without reaching the delete statement. In the
code, `get` wraps its result as `{ node }`, an object that is always truthy,
so the `!node` guard never fires: on the empty database the method still
issues the `DELETE` statement (visible in the log) and returns the
zero-rows error "Could not delete Node. Please try again later." instead. -/
theorem c2_delete_missing_row_zero_rows_error :
    Crud.delete exCrud [("id", Value.num 1)] exInfoNode exDbEmpty =
      (.errorsRes [⟨"delete", "Could not delete Node. Please try again later."⟩],
       { tables := [("post", { rows := [], nextId := 1 })]
         log := [.opDelete "post" [("id", Value.num 1)]] }) := rfl

/-- C3: for every `getPaginated` call with a requested limit, `hasNextPage`
is true exactly when the number of returned edges equals that limit, and
`totalCount` comes from the separate `getTotal` count query. -/
theorem c3_hasNextPage_iff_length_eq_limit (c : Crud) (args : ListArgs)
    (info : FieldTree) (db : Database) (l : Nat) (h : args.limit = some l) :
    ((c.getPaginated args info db).pageInfo.hasNextPage = true ↔
      (c.getPaginated args info db).edges.length = l) ∧
    (c.getPaginated args info db).pageInfo.totalCount = c.getTotal db := by
  unfold Crud.getPaginated
  rw [h]
  simp

/-- C3 witness: two rows, limit one — `hasNextPage` holds and the count query
feeds `totalCount`. -/
theorem c3_witness :
    exArgs1.limit = some 1 ∧
    (((exCrud.getPaginated exArgs1 exInfoEdges exDb2).pageInfo.hasNextPage = true ↔
      (exCrud.getPaginated exArgs1 exInfoEdges exDb2).edges.length = 1) ∧
     (exCrud.getPaginated exArgs1 exInfoEdges exDb2).pageInfo.totalCount =
       exCrud.getTotal exDb2) :=
  ⟨rfl, c3_hasNextPage_iff_length_eq_limit exCrud exArgs1 exInfoEdges exDb2 1 rfl⟩

/-- C5: `delete` fetches the node first and returns that pre-deletion node
when the delete statement affects at least one row, and the zero-rows field
error when it affects none. -/
theorem c5_delete_pre_node_or_error (c : Crud) (w : Obj) (info : FieldTree)
    (db : Database) :
    ((c._delete w db).1 ≠ 0 →
      c.delete w info db = (.nodeRes (c.get w info db).node, (c._delete w db).2)) ∧
    ((c._delete w db).1 = 0 →
      c.delete w info db =
        (.errorsRes [⟨"delete", "Could not delete Node. Please try again later."⟩],
         (c._delete w db).2)) := by
  constructor
  · intro h
    unfold Crud.delete
    rw [if_neg (by simp [getResTruthy]), if_pos h]
  · intro h
    unfold Crud.delete
    rw [if_neg (by simp [getResTruthy]), if_neg (by simp [h])]

/-- C5 witness: deleting an existing row returns the pre-deletion node. -/
theorem c5_witness :
    (Crud._delete exCrud [("id", Value.num 1)] exDb2).1 ≠ 0 ∧
    Crud.delete exCrud [("id", Value.num 1)] exInfoNode exDb2 =
      (.nodeRes (Crud.get exCrud [("id", Value.num 1)] exInfoNode exDb2).node,
       (Crud._delete exCrud [("id", Value.num 1)] exDb2).2) :=
  ⟨by decide,
   (c5_delete_pre_node_or_error exCrud [("id", Value.num 1)] exInfoNode exDb2).1
     (by decide)⟩

/-- C8: `sort` returns `{ count }` with the affected-row count when the
two-row rank swap affects at least one row, and the zero-rows field error
when it affects none. -/
theorem c8_sort_count_or_error (c : Crud) (d : SortData) (db : Database) :
    ((c._sort d db).1 > 0 →
      c.sort d db = (.countRes (c._sort d db).1, (c._sort d db).2)) ∧
    ((c._sort d db).1 = 0 →
      c.sort d db =
        (.errorsRes [⟨"sort", "Could not sort Node. Please try again later."⟩],
         (c._sort d db).2)) := by
  constructor
  · intro h
    unfold Crud.sort
    rw [if_pos h]
  · intro h
    unfold Crud.sort
    rw [if_neg (by simp [h])]

/-- C8 witness: swapping the ranks of the two stored rows affects two rows
and returns their count. -/
theorem c8_witness :
    (Crud._sort exCrud ⟨1, 2, 7, 5⟩ exDb2).1 > 0 ∧
    Crud.sort exCrud ⟨1, 2, 7, 5⟩ exDb2 =
      (.countRes (Crud._sort exCrud ⟨1, 2, 7, 5⟩ exDb2).1,
       (Crud._sort exCrud ⟨1, 2, 7, 5⟩ exDb2).2) :=
  ⟨by decide, (c8_sort_count_or_error exCrud ⟨1, 2, 7, 5⟩ exDb2).1 (by decide)⟩

/-- C6: `getByIds` returns one slot per input id, in input order, and every
returned row's foreign-key field (`${by}Id`) carries exactly the id of its
slot — for every database, hence regardless of the order in which the query
returns rows. -/
theorem c6_getByIds_input_order (ids : List Nat) (byName : String)
    (relObj : Crud) (info : FieldTree) (db : Database) :
    (Crud.getByIds ids byName relObj info db).length = ids.length ∧
    List.Forall₂ (fun (i : Nat) (o : Option Obj) =>
        ∀ r, o = some r → r.getF (byName ++ "Id") = some (.num i))
      ids (Crud.getByIds ids byName relObj info db) := by
  unfold Crud.getByIds orderedFor
  constructor
  · simp
  · rw [List.forall₂_map_right_iff, List.forall₂_same]
    intro i hi r hr
    have hp := List.find?_some hr
    cases hv : r.getF (byName ++ "Id") with
    | none => rw [hv] at hp; simp at hp
    | some v =>
      cases v with
      | num m =>
        rw [hv] at hp
        simp at hp
        rw [hp]
      | str s => rw [hv] at hp; simp at hp
      | vnull => rw [hv] at hp; simp at hp
      | sub a b c => rw [hv] at hp; simp at hp

/-- C6 witness: the stored rows are in the reverse of the requested order,
and the result still lines up with the input ids. -/
theorem c6_witness :
    (Crud.getByIds [1, 2] "post" exChild (.node [("id", .leaf)]) exDbC).length =
      ([1, 2] : List Nat).length ∧
    List.Forall₂ (fun (i : Nat) (o : Option Obj) =>
        ∀ r, o = some r → r.getF ("post" ++ "Id") = some (.num i))
      [1, 2] (Crud.getByIds [1, 2] "post" exChild (.node [("id", .leaf)]) exDbC) :=
  c6_getByIds_input_order [1, 2] "post" exChild (.node [("id", .leaf)]) exDbC

/-- C7 counterexample: `updateMany`, though a public mutation, returns
JS `undefined` — neither a successful payload nor an `{ errors }` object —
because its not-implemented error is recorded but never thrown. -/
theorem c7_updateMany_unhandled :
    (runMutation exCrud (.mUpdateMany ⟨[("title", Value.str "x")], [1, 2]⟩)
      exCtx exInfoNode exDbEmpty).1 = .undef := rfl

/-- `delete` always yields a payload or an errors object. -/
theorem delete_isHandled (c : Crud) (w : Obj) (info : FieldTree) (db : Database) :
    ((c.delete w info db).1).isHandled = true := by
  unfold Crud.delete
  rw [if_neg (by simp [getResTruthy])]
  split
  · rfl
  · rfl

/-- `sort` always yields a payload or an errors object. -/
theorem sort_isHandled (c : Crud) (d : SortData) (db : Database) :
    ((c.sort d db).1).isHandled = true := by
  unfold Crud.sort
  split
  · rfl
  · rfl

/-- `deleteMany` always yields a payload or an errors object. -/
theorem deleteMany_isHandled (c : Crud) (ids : List Nat) (db : Database) :
    ((c.deleteMany ids db).1).isHandled = true := by
  unfold Crud.deleteMany
  split
  · rfl
  · rfl

/-- C7 (amended): every public mutation other than `updateMany` returns
either its successful payload or an `{ errors }` object; no exception
reaches the caller. -/
theorem c7_mutations_handled (c : Crud) (mc : MutationCall) (ctx : Ctx)
    (info : FieldTree) (db : Database) (h : mc.isUpdateMany = false) :
    ((runMutation c mc ctx info db).1).isHandled = true := by
  cases mc with
  | mCreate data => rfl
  | mUpdate data w => rfl
  | mDelete w => exact delete_isHandled c w info db
  | mSort d => exact sort_isHandled c d db
  | mUpdateMany args => simp [MutationCall.isUpdateMany] at h
  | mDeleteMany ids => exact deleteMany_isHandled c ids db

/-- C7 witness: a concrete non-bulk-update mutation returns a handled
result. -/
theorem c7_witness :
    (MutationCall.mDelete [("id", Value.num 1)]).isUpdateMany = false ∧
    ((runMutation exCrud (.mDelete [("id", Value.num 1)]) exCtx exInfoNode
      exDb2).1).isHandled = true :=
  ⟨rfl, c7_mutations_handled exCrud (.mDelete [("id", Value.num 1)]) exCtx
    exInfoNode exDb2 rfl⟩

/-- C9: when no order specification with a truthy column is supplied and the
table's ids are numeric, both list queries return rows ascending in the
primary-key `id` column. -/
theorem c9_list_queries_order_by_id (c : Crud) (args : ListArgs)
    (info : FieldTree) (db : Database)
    (hOrd : obHasColumn args.orderBy = false)
    (hIds : ((dbGetTable db c.fullTable).rows.all isNumIdB) = true) :
    (c.getList args info db).Pairwise
      (fun r1 r2 => rowLe "id" true r1 r2 = true) ∧
    ((c.getPaginated args info db).edges).Pairwise
      (fun r1 r2 => rowLe "id" true r1 r2 = true) := by
  constructor
  · exact pairwise_getList_id c args (some info) db hOrd hIds
  · exact pairwise_getList_id c args (info.child "edges") db hOrd hIds

/-- C9 witness: rows stored out of id order come back in id order from both
list queries. -/
theorem c9_witness :
    obHasColumn exArgsAll.orderBy = false ∧
    ((dbGetTable exDb9 exCrud.fullTable).rows.all isNumIdB) = true ∧
    ((exCrud.getList exArgsAll (.node [("id", .leaf)]) exDb9).Pairwise
      (fun r1 r2 => rowLe "id" true r1 r2 = true) ∧
     ((exCrud.getPaginated exArgsAll (.node [("id", .leaf)]) exDb9).edges).Pairwise
      (fun r1 r2 => rowLe "id" true r1 r2 = true)) :=
  ⟨rfl, by decide,
   c9_list_queries_order_by_id exCrud exArgsAll (.node [("id", .leaf)]) exDb9
     rfl (by decide)⟩

/-- C4 counterexample: the claim says every array-of-schema field of the
payload is removed before the base insert. With the `comments` field (an
array-of-schema field of the schema) holding the falsy value `null`, the
`value.type.constructor === Array && data[key]` guard fails, the field is
not stripped, and the base insert's payload still carries it. -/
theorem c4_falsy_nested_field_not_stripped :
    (Crud.create exCrud exDataNull exCtx exInfoNode exDbEmpty).2.log
      = [.opInsert "post" [("title", Value.str "t"), ("comments", Value.vnull)]] := rfl

/-- C4 (amended): every array-of-schema field of the payload holding a
truthy value is removed before the base-row insert; and, provided the
context binds each extracted key's pascalized name, the statements issued
are exactly the base insert of the stripped payload followed, for each entry
of each removed collection's `create` list, by one child insert carrying the
camel-cased `${schema.name}Id` foreign key set to the newly inserted parent
id. -/
theorem c4_create_strips_and_fans_out (c : Crud) (data : Obj) (ctx : Ctx)
    (info : FieldTree) (db : Database)
    (hctx : ((extractNested c.schema data).2.all
      (fun e => (ctx.lookup (pascalize e.1)).isSome)) = true) :
    (∀ k, c.schema.isArrayKeyB k = true → valTruthyOpt (data.getF k) = true →
      ((extractNested c.schema data).1).getF k = none) ∧
    ((c.create data ctx info db).2.log
      = db.log
        ++ [.opInsert c.fullTable (decamelizeKeys (extractNested c.schema data).1)]
        ++ ((extractNested c.schema data).2.map (fun e =>
            (subCreates e.2).map (fun cr =>
              Op.opInsert (ctxTable ctx e.1)
                (decamelizeKeys (cr.setF (fkName c)
                  (.num (dbGetTable db c.fullTable).nextId)))))).flatten) := by
  constructor
  · intro k hk ht
    exact extractNested_strips c.schema data k hk ht
  · rw [log_crud_create, childCreateOps_of_bound _ _ _ _ hctx]

/-- C4 witness: a payload with a truthy two-entry nested collection — the
stripped field is gone from the base insert and exactly two child inserts
with `postId` set to the new parent id follow. -/
theorem c4_witness :
    ((extractNested exCrud.schema exData).2.all
      (fun e => (exCtx.lookup (pascalize e.1)).isSome)) = true ∧
    ((∀ k, exCrud.schema.isArrayKeyB k = true →
        valTruthyOpt (exData.getF k) = true →
        ((extractNested exCrud.schema exData).1).getF k = none) ∧
     ((Crud.create exCrud exData exCtx exInfoNode exDbEmpty).2.log
      = exDbEmpty.log
        ++ [.opInsert exCrud.fullTable
              (decamelizeKeys (extractNested exCrud.schema exData).1)]
        ++ ((extractNested exCrud.schema exData).2.map (fun e =>
            (subCreates e.2).map (fun cr =>
              Op.opInsert (ctxTable exCtx e.1)
                (decamelizeKeys (cr.setF (fkName exCrud)
                  (.num (dbGetTable exDbEmpty exCrud.fullTable).nextId)))))).flatten)) :=
  ⟨rfl, c4_create_strips_and_fans_out exCrud exData exCtx exInfoNode exDbEmpty rfl⟩

/-- `_update` appends exactly its update statement to the log. -/
theorem log_update (c : Crud) (d w : Obj) (db : Database) :
    (c._update d w db).2.log
      = db.log ++ [.opUpdate c.fullTable (decamelizeKeys d) w] := rfl

/-- `_delete` appends exactly its delete statement to the log. -/
theorem log_delete (c : Crud) (w : Obj) (db : Database) :
    (c._delete w db).2.log = db.log ++ [.opDelete c.fullTable w] := rfl

/-- A run of sibling `_update`s appends one update statement per entry. -/
theorem log_foldl_updates (child : Crud) (l : List (Obj × Obj)) (db : Database) :
    (l.foldl (fun dbA du => (child._update du.1 du.2 dbA).2) db).log
      = db.log
        ++ l.map (fun du => Op.opUpdate child.fullTable (decamelizeKeys du.1) du.2) := by
  induction l generalizing db with
  | nil => simp
  | cons du rest ih =>
    rw [List.foldl_cons, ih, log_update]
    simp

/-- A run of sibling `_delete`s appends one delete statement per entry. -/
theorem log_foldl_deletes (child : Crud) (l : List Obj) (db : Database) :
    (l.foldl (fun dbA w => (child._delete w dbA).2) db).log
      = db.log ++ l.map (fun w => Op.opDelete child.fullTable w) := by
  induction l generalizing db with
  | nil => simp
  | cons w rest ih =>
    rw [List.foldl_cons, ih, log_delete]
    simp

/-- The `update` fan-out appends exactly `childAllOps`. -/
theorem log_runNestedAll (ctx : Ctx) (fk : String) (idv : Value)
    (nested : List (String × Value)) (db : Database) :
    (runNestedAll ctx fk idv nested db).log
      = db.log ++ childAllOps ctx fk idv nested := by
  induction nested generalizing db with
  | nil => simp [runNestedAll, childAllOps]
  | cons e rest ih =>
    unfold runNestedAll childAllOps
    rw [List.foldl_cons, List.map_cons, List.flatten_cons]
    unfold runNestedAll childAllOps at ih
    rw [ih]
    unfold nestedAllStep
    cases hl : ctx.lookup (pascalize e.1) with
    | some child =>
      rw [log_foldl_deletes, log_foldl_updates, log_foldl_creates]
      simp
    | none => simp

/-- The statements `update` issues: the base update of the stripped payload,
then the nested fan-out. -/
theorem log_crud_update (c : Crud) (data w : Obj) (ctx : Ctx) (info : FieldTree)
    (db : Database) :
    (c.update data w ctx info db).2.log
      = db.log
        ++ [.opUpdate c.fullTable (decamelizeKeys (extractNested c.schema data).1) w]
        ++ childAllOps ctx (fkName c) (whereIdVal w)
             (extractNested c.schema data).2 := by
  unfold Crud.update
  rw [log_runNestedAll, log_update]

/-- Every statement of the create fan-out is the insert of one entry of one
extracted collection's `create` list with the foreign key set. -/
theorem childCreateOps_mem (ctx : Ctx) (fk : String) (idv : Value)
    (nested : List (String × Value)) :
    ∀ op ∈ childCreateOps ctx fk idv nested,
      ∃ e ∈ nested, ∃ cr ∈ subCreates e.2,
        op = Op.opInsert (ctxTable ctx e.1) (decamelizeKeys (cr.setF fk idv)) := by
  intro op hop
  unfold childCreateOps at hop
  rw [List.mem_flatten] at hop
  obtain ⟨l, hl, hopl⟩ := hop
  rw [List.mem_map] at hl
  obtain ⟨e, he, hle⟩ := hl
  refine ⟨e, he, ?_⟩
  subst hle
  cases hlk : ctx.lookup (pascalize e.1) with
  | some child =>
    rw [hlk] at hopl
    rw [List.mem_map] at hopl
    obtain ⟨cr, hcr, hcre⟩ := hopl
    refine ⟨cr, hcr, ?_⟩
    rw [← hcre]
    unfold ctxTable
    rw [hlk]
  | none =>
    rw [hlk] at hopl
    simp at hopl

/-- Every insert statement of the `update` fan-out is the insert of one
entry of one extracted collection's `create` list with the foreign key set
(the other fan-out statements are updates and deletes). -/
theorem childAllOps_insert_mem (ctx : Ctx) (fk : String) (idv : Value)
    (nested : List (String × Value)) :
    ∀ op ∈ childAllOps ctx fk idv nested, ∀ tbl p, op = Op.opInsert tbl p →
      ∃ e ∈ nested, ∃ cr ∈ subCreates e.2,
        op = Op.opInsert (ctxTable ctx e.1) (decamelizeKeys (cr.setF fk idv)) := by
  intro op hop tbl p hins
  unfold childAllOps at hop
  rw [List.mem_flatten] at hop
  obtain ⟨l, hl, hopl⟩ := hop
  rw [List.mem_map] at hl
  obtain ⟨e, he, hle⟩ := hl
  refine ⟨e, he, ?_⟩
  subst hle
  cases hlk : ctx.lookup (pascalize e.1) with
  | some child =>
    rw [hlk] at hopl
    rw [List.mem_append, List.mem_append] at hopl
    rcases hopl with (hcr | hup) | hdel
    · rw [List.mem_map] at hcr
      obtain ⟨cr, hcr, hcre⟩ := hcr
      refine ⟨cr, hcr, ?_⟩
      rw [← hcre]
      unfold ctxTable
      rw [hlk]
    · rw [List.mem_map] at hup
      obtain ⟨du, hdu, hdue⟩ := hup
      rw [← hdue] at hins
      exact absurd hins (by simp)
    · rw [List.mem_map] at hdel
      obtain ⟨wv, hwv, hwve⟩ := hdel
      rw [← hwve] at hins
      exact absurd hins (by simp)
  | none =>
    rw [hlk] at hopl
    simp at hopl

/-- C10 counterexample: the claim says the caller's `data` argument is never
left unchanged. A payload with no array-of-schema field is not touched by
the extraction loop — the only writes `create`/`update` perform on the
`data` object itself — so it is left exactly as supplied. -/
theorem c10_flat_payload_unchanged : mutatedData exCrud exDataFlat = exDataFlat := rfl

/-- C10 (amended): when the payload holds a truthy value under a field
declared array-of-schema, `create`/`update` do mutate the caller's `data` in
place: the field is deleted from it, so the object differs from the one
supplied, and that mutated object is what the base insert/update statement
receives; the nested create entries are sent onward with the foreign-key
property added — every child insert statement `create` issues carries one
entry's object with the foreign key set to the newly inserted parent id, and
every child insert statement `update` issues carries it set to
`args.where.id`. (A payload with no truthy array-of-schema field is left
unchanged, per the counterexample.) -/
theorem c10_mutates_data_in_place (c : Crud) (data : Obj) (ctx : Ctx)
    (info : FieldTree) (db : Database) (k : String)
    (hk : c.schema.isArrayKeyB k = true)
    (ht : valTruthyOpt (data.getF k) = true) :
    (mutatedData c data).getF k = none ∧
    mutatedData c data ≠ data ∧
    ((c.create data ctx info db).2.log
      = db.log
        ++ [.opInsert c.fullTable (decamelizeKeys (mutatedData c data))]
        ++ childCreateOps ctx (fkName c) (.num (dbGetTable db c.fullTable).nextId)
            (extractNested c.schema data).2) ∧
    (∀ op ∈ childCreateOps ctx (fkName c)
        (.num (dbGetTable db c.fullTable).nextId) (extractNested c.schema data).2,
      ∃ e ∈ (extractNested c.schema data).2, ∃ cr ∈ subCreates e.2,
        op = Op.opInsert (ctxTable ctx e.1)
          (decamelizeKeys (cr.setF (fkName c)
            (.num (dbGetTable db c.fullTable).nextId)))) ∧
    (∀ w : Obj,
      (c.update data w ctx info db).2.log
        = db.log
          ++ [.opUpdate c.fullTable (decamelizeKeys (mutatedData c data)) w]
          ++ childAllOps ctx (fkName c) (whereIdVal w)
              (extractNested c.schema data).2) ∧
    (∀ w : Obj, ∀ op ∈ childAllOps ctx (fkName c) (whereIdVal w)
        (extractNested c.schema data).2, ∀ tbl p, op = Op.opInsert tbl p →
      ∃ e ∈ (extractNested c.schema data).2, ∃ cr ∈ subCreates e.2,
        op = Op.opInsert (ctxTable ctx e.1)
          (decamelizeKeys (cr.setF (fkName c) (whereIdVal w)))) := by
  have hstrip : (mutatedData c data).getF k = none :=
    extractNested_strips c.schema data k hk ht
  refine ⟨hstrip, ?_, ?_, ?_, ?_, ?_⟩
  · intro heq
    rw [heq] at hstrip
    rw [hstrip] at ht
    simp [valTruthyOpt] at ht
  · exact log_crud_create c data ctx info db
  · exact childCreateOps_mem ctx (fkName c) _ (extractNested c.schema data).2
  · intro w
    exact log_crud_update c data w ctx info db
  · intro w
    exact childAllOps_insert_mem ctx (fkName c) (whereIdVal w)
      (extractNested c.schema data).2

/-- C10 witness: the example nested payload is mutated — `comments` is
deleted from the caller's object, the base statements carry the stripped
payload, and the child inserts carry the foreign-key-injected entries. -/
theorem c10_witness :
    exCrud.schema.isArrayKeyB "comments" = true ∧
    valTruthyOpt (exData.getF "comments") = true ∧
    ((mutatedData exCrud exData).getF "comments" = none ∧
     mutatedData exCrud exData ≠ exData ∧
     ((Crud.create exCrud exData exCtx exInfoNode exDbEmpty).2.log
       = exDbEmpty.log
         ++ [.opInsert exCrud.fullTable (decamelizeKeys (mutatedData exCrud exData))]
         ++ childCreateOps exCtx (fkName exCrud)
             (.num (dbGetTable exDbEmpty exCrud.fullTable).nextId)
             (extractNested exCrud.schema exData).2) ∧
     (∀ op ∈ childCreateOps exCtx (fkName exCrud)
         (.num (dbGetTable exDbEmpty exCrud.fullTable).nextId)
         (extractNested exCrud.schema exData).2,
       ∃ e ∈ (extractNested exCrud.schema exData).2, ∃ cr ∈ subCreates e.2,
         op = Op.opInsert (ctxTable exCtx e.1)
           (decamelizeKeys (cr.setF (fkName exCrud)
             (.num (dbGetTable exDbEmpty exCrud.fullTable).nextId)))) ∧
     (∀ w : Obj,
       (Crud.update exCrud exData w exCtx exInfoNode exDbEmpty).2.log
         = exDbEmpty.log
           ++ [.opUpdate exCrud.fullTable
                 (decamelizeKeys (mutatedData exCrud exData)) w]
           ++ childAllOps exCtx (fkName exCrud) (whereIdVal w)
               (extractNested exCrud.schema exData).2) ∧
     (∀ w : Obj, ∀ op ∈ childAllOps exCtx (fkName exCrud) (whereIdVal w)
         (extractNested exCrud.schema exData).2, ∀ tbl p, op = Op.opInsert tbl p →
       ∃ e ∈ (extractNested exCrud.schema exData).2, ∃ cr ∈ subCreates e.2,
         op = Op.opInsert (ctxTable exCtx e.1)
           (decamelizeKeys (cr.setF (fkName exCrud) (whereIdVal w))))) :=
  ⟨rfl, rfl,
   c10_mutates_data_in_place exCrud exData exCtx exInfoNode exDbEmpty "comments"
     rfl rfl⟩
